import Mathlib

/-!
Shallow embedding of the Postmark e-mail client (`src/postmark.go`) and
verification of its specification.

The Go package is a single component: a `PMMail` value object holding
envelope fields, custom headers and attachments, with operations
`AddCustomHeader`, `AddAttachment`, `checkValues` (validation),
`MessageAsJSONPacket` (payload construction) and `Send` (HTTP exchange).

Modelling conventions:
* Strings stay `String`; byte contents are `List Nat` (each byte `< 256`,
  though nothing below needs the bound).
* The JSON value produced by `MessageAsJSONPacket` is modelled as a JSON
  tree (`JValue`) rather than marshalled bytes: the Go code builds a
  `map[string]interface{}` whose inserted keys are pairwise-distinct
  literals, so an association list in insertion order is a faithful model
  of the object; `json.Marshal` on such a map cannot fail and only fixes a
  key order, which the spec explicitly sets aside.
* File-system effects of `AddAttachment` (`os.Stat`, `os.Open`,
  `ioutil.ReadAll`) are an oracle record `FSOutcome` supplying each call's
  result; the MIME table `mime.TypeByExtension` is an oracle function
  `String → String` returning `""` for unknown extensions, exactly its Go
  contract. `os.FileInfo.Name()` is, per its Go contract, the base name of
  the path given to `os.Stat`, embedded here as `pathBase`.
* The HTTP exchange of `Send` is an oracle from the built payload to
  either a transport error or an `HTTPResponse`; the response carries the
  status code, the result of reading the body (`io.Copy` can fail) and the
  result of `json.Unmarshal` into `Reply` (`none` models a parse failure,
  in which case the Go code keeps the zero-valued `Reply`, since the
  returned error of `json.Unmarshal` is discarded).
-/

/-- `header` record of `postmark.go`: one custom header pair. -/
structure header where
  Name : String
  Value : String
deriving DecidableEq, Repr

/-- `attachment` record of `postmark.go`. -/
structure attachment where
  Name : String
  Content : String
  ContentType : String
deriving DecidableEq, Repr

/-- `Reply` record of `postmark.go`: decoded response body. -/
structure Reply where
  ErrorCode : Int
  Message : String
  MessageID : String
  SubmittedAt : String
  To : String
deriving DecidableEq, Repr

/-- The zero value of `Reply`, as produced by `new(Reply)` in Go. -/
def zeroReply : Reply :=
  { ErrorCode := 0, Message := "", MessageID := "", SubmittedAt := "", To := "" }

/-- `PMMail` struct of `postmark.go`. -/
structure PMMail where
  userAgent : String
  apiKey : String
  customHeaders : List header
  attachments : List attachment
  Sender : String
  ReplyTo : String
  To : String
  CC : String
  BCC : String
  Subject : String
  Tag : String
  HTMLBody : String
  TextBody : String
deriving DecidableEq, Repr

/-- `CreatePMMail`: fresh message bound to an API key; all content fields
start at their zero value.  (The Go code sets `userAgent` with
`fmt.Sprintf("... version %f", __VERSION__)`; the resulting constant
string is kept verbatim as `Sprintf` renders a string argument under the
`%f` verb as `%!f(string=0.1)`.) -/
def CreatePMMail (apikey : String) : PMMail :=
  { userAgent := "Go (Go postmark package library version %!f(string=0.1))"
    apiKey := apikey
    customHeaders := []
    attachments := []
    Sender := "", ReplyTo := "", To := "", CC := "", BCC := ""
    Subject := "", Tag := "", HTMLBody := "", TextBody := "" }

/-- `AddCustomHeader`: append a `(name, value)` pair to `customHeaders`. -/
def AddCustomHeader (p : PMMail) (name value : String) : PMMail :=
  { p with customHeaders := p.customHeaders ++ [{ Name := name, Value := value }] }

/-- Typed rendering of the four `fmt.Errorf` values of `checkValues`. -/
inductive ValidationError where
  | missingSender
  | missingRecipient
  | missingSubject
  | missingBody
deriving DecidableEq, Repr

/-- `checkValues` of `postmark.go`: the four required-field checks, in
source order, returning the first failing check's error. -/
def checkValues (p : PMMail) : Option ValidationError :=
  if p.Sender = "" then some .missingSender
  else if p.To = "" then some .missingRecipient
  else if p.Subject = "" then some .missingSubject
  else if p.HTMLBody = "" ∧ p.TextBody = "" then some .missingBody
  else none

/-- JSON trees, the codomain of the payload builder. -/
inductive JValue where
  | str : String → JValue
  | arr : List JValue → JValue
  | obj : List (String × JValue) → JValue

/-- How `json.Marshal` serializes one `attachment` record (all fields
exported, no tags): the object `{Name, Content, ContentType}`. -/
def attachmentToJson (a : attachment) : JValue :=
  .obj [("Name", .str a.Name), ("Content", .str a.Content),
        ("ContentType", .str a.ContentType)]

/-- How `json.Marshal` serializes one `header` record: `{Name, Value}`. -/
def headerToJson (h : header) : JValue :=
  .obj [("Name", .str h.Name), ("Value", .str h.Value)]

/-- One conditional insertion into the payload object:
`if c { json_interface[k] = v }`. -/
def optEntry (c : Prop) [Decidable c] (k : String) (v : JValue) :
    List (String × JValue) :=
  if c then [(k, v)] else []

/-- The `json_interface` map built by `MessageAsJSONPacket` after
validation passed, as an association list in insertion order (all
inserted keys are pairwise-distinct literals). -/
def buildJsonInterface (p : PMMail) : List (String × JValue) :=
  [("From", .str p.Sender), ("To", .str p.To), ("Subject", .str p.Subject)]
  ++ optEntry (p.ReplyTo ≠ "") "ReplyTo" (.str p.ReplyTo)
  ++ optEntry (p.CC ≠ "") "Cc" (.str p.CC)
  ++ optEntry (p.BCC ≠ "") "Bcc" (.str p.BCC)
  ++ optEntry (p.Tag ≠ "") "Tag" (.str p.Tag)
  ++ optEntry (p.HTMLBody ≠ "") "HtmlBody" (.str p.HTMLBody)
  ++ optEntry (p.TextBody ≠ "") "TextBody" (.str p.TextBody)
  ++ optEntry (p.attachments.length > 0) "Attachments"
      (.arr (p.attachments.map attachmentToJson))
  ++ optEntry (p.customHeaders.length > 0) "Headers"
      (.arr (p.customHeaders.map headerToJson))

/-- `MessageAsJSONPacket`: validate, then build the payload object. -/
def MessageAsJSONPacket (p : PMMail) :
    Except ValidationError (List (String × JValue)) :=
  match checkValues p with
  | some e => .error e
  | none => .ok (buildJsonInterface p)

/-- The method `MessageAsJSONPacket` with its pointer receiver made
explicit: the state of the message after the call, paired with the
result.  The Go method body reads but never assigns any field of `*p`,
so the out-state is the in-state. -/
def MessageAsJSONPacketSt (p : PMMail) :
    PMMail × Except ValidationError (List (String × JValue)) :=
  (p, MessageAsJSONPacket p)

/-- Key lookup in the payload object. -/
def jsonLookup (k : String) : List (String × JValue) → Option JValue
  | [] => none
  | (k', v) :: rest => if k = k' then some v else jsonLookup k rest

/-- The key set of a payload object, in insertion order. -/
def payloadKeys (obj : List (String × JValue)) : List String :=
  obj.map Prod.fst

-- Helper lemmas about `optEntry` and `jsonLookup`.

theorem mem_payloadKeys_optEntry (c : Prop) [Decidable c] (k k' : String)
    (v : JValue) : k ∈ payloadKeys (optEntry c k' v) ↔ k = k' ∧ c := by
  unfold optEntry payloadKeys
  split
  · simp_all
  · simp_all

theorem payloadKeys_append (xs ys : List (String × JValue)) :
    payloadKeys (xs ++ ys) = payloadKeys xs ++ payloadKeys ys := by
  simp [payloadKeys]

theorem jsonLookup_append_of_none (k : String) (xs ys : List (String × JValue))
    (h : jsonLookup k xs = none) :
    jsonLookup k (xs ++ ys) = jsonLookup k ys := by
  induction xs with
  | nil => simp
  | cons x rest ih =>
    obtain ⟨k', v⟩ := x
    by_cases hk : k = k'
    · simp [jsonLookup, hk] at h
    · simp only [jsonLookup, if_neg hk] at h
      simpa [jsonLookup, hk] using ih h

theorem jsonLookup_optEntry_ne (c : Prop) [Decidable c] (k k' : String)
    (v : JValue) (h : k ≠ k') : jsonLookup k (optEntry c k' v) = none := by
  unfold optEntry
  split
  · simp [jsonLookup, h]
  · simp [jsonLookup]

-- ## The HTTP exchange (`Send`)

/-- Typed rendering of the error values `Send` can return: the propagated
validation error, the transport error of `http.DefaultClient.Do`, the
four mapped HTTP-status errors (each carrying the status code it was
built from), a body-read (`io.Copy`) failure, and the remote error raised
when the decoded `Reply` has a non-zero `ErrorCode`. -/
inductive SendError where
  | validation : ValidationError → SendError
  | transport : String → SendError
  | authError : Nat → SendError
  | notFoundError : Nat → SendError
  | malformedRequestError : Nat → SendError
  | serverError : Nat → SendError
  | bodyReadError : String → SendError
  | remoteError : Int → SendError
deriving DecidableEq, Repr

/-- Oracle for one obtained HTTP response: the status code, the outcome of
reading the body with `io.Copy`, and the outcome of `json.Unmarshal` of
the body into `Reply` (`none` models a JSON parse failure; the Go code
discards `Unmarshal`'s error, leaving the `Reply` zero-valued). -/
structure HTTPResponse where
  StatusCode : Nat
  readErr : Option String
  bodyDecode : Option Reply
deriving DecidableEq, Repr

/-- The part of `Send` after the status-code dispatch: read the body,
decode it permissively, and turn a non-zero `ErrorCode` into a
`remoteError` returned together with the reply. -/
def parseBody (resp : HTTPResponse) : Option Reply × Option SendError :=
  match resp.readErr with
  | some e => (none, some (.bodyReadError e))
  | none =>
    let reply := resp.bodyDecode.getD zeroReply
    if reply.ErrorCode ≠ 0 then (some reply, some (.remoteError reply.ErrorCode))
    else (some reply, none)

/-- `Send` of `postmark.go`, with the network as an oracle `net` mapping
the posted payload to the outcome of `http.DefaultClient.Do`: build the
packet (propagating its error with a `nil` reply), post it, dispatch on
the four mapped status codes, then parse the body.  The Go result pair
`(*Reply, error)` is `Option Reply × Option SendError`. -/
def Send (p : PMMail)
    (net : List (String × JValue) → Except String HTTPResponse) :
    Option Reply × Option SendError :=
  match MessageAsJSONPacket p with
  | .error e => (none, some (.validation e))
  | .ok data =>
    match net data with
    | .error e => (none, some (.transport e))
    | .ok response =>
      if response.StatusCode = 401 then (none, some (.authError response.StatusCode))
      else if response.StatusCode = 404 then (none, some (.notFoundError response.StatusCode))
      else if response.StatusCode = 422 then (none, some (.malformedRequestError response.StatusCode))
      else if response.StatusCode = 500 then (none, some (.serverError response.StatusCode))
      else parseBody response

-- ## Attachments (`AddAttachment`)

/-- Go `path.Ext`: the suffix of the final slash-separated element
starting at its final dot, or `""` when there is no dot.  The scan is per
the Go source: walk backwards from the end of the string until a slash,
returning at the first dot. -/
def pathExtAux : List Char → List Char → String
  | [], _ => ""
  | c :: rest, acc =>
    if c = '/' then ""
    else if c = '.' then String.mk (c :: acc)
    else pathExtAux rest (c :: acc)

/-- `path.Ext` over the whole path (scan from the end). -/
def pathExt (p : String) : String := pathExtAux p.data.reverse []

/-- Go `path.Base` (the contract of `os.FileInfo.Name()` for the path
given to `os.Stat`): strip trailing slashes, keep the part after the last
slash; `"."` for the empty path, `"/"` for an all-slash path. -/
def pathBase (p : String) : String :=
  if p = "" then "."
  else
    let rev := p.data.reverse
    let trimmed := rev.dropWhile (fun c => c = '/')
    let base := (trimmed.takeWhile (fun c => c ≠ '/')).reverse
    if base = [] then "/" else String.mk base

/-- The standard base64 alphabet of `encoding/base64.StdEncoding`. -/
def b64Alphabet : List Char :=
  "ABCDEFGHIJKLMNOPQRSTUVWXYZabcdefghijklmnopqrstuvwxyz0123456789+/".data

/-- Character `n` of the standard base64 alphabet. -/
def b64Char (n : Nat) : Char := b64Alphabet.getD n '='

/-- `base64.StdEncoding.EncodeToString`: encode bytes three at a time into
four alphabet characters, padding a final 1- or 2-byte group with `=`. -/
def base64Encode : List Nat → String
  | [] => ""
  | [b0] =>
    String.mk [b64Char (b0 / 4), b64Char (b0 % 4 * 16), '=', '=']
  | [b0, b1] =>
    String.mk [b64Char (b0 / 4), b64Char (b0 % 4 * 16 + b1 / 16),
               b64Char (b1 % 16 * 4), '=']
  | b0 :: b1 :: b2 :: rest =>
    String.mk [b64Char (b0 / 4), b64Char (b0 % 4 * 16 + b1 / 16),
               b64Char (b1 % 16 * 4 + b2 / 64), b64Char (b2 % 64)]
    ++ base64Encode rest

/-- Typed rendering of the error values `AddAttachment` can return: a
failed `os.Stat`, the 10MB size-limit error, a failed `os.Open`, a failed
`ioutil.ReadAll`. -/
inductive AttachError where
  | statFailed : String → AttachError
  | sizeLimitExceeded : Int → AttachError
  | openFailed : String → AttachError
  | readFailed : String → AttachError
deriving DecidableEq, Repr

/-- Oracle for the file-system calls of one `AddAttachment` invocation:
the result of `os.Stat` (an error, or the file's size — its `Name()` is
determined by the path, see `pathBase`), of `os.Open`, and of
`ioutil.ReadAll` (an error, or the file's bytes). -/
structure FSOutcome where
  statRes : Except String Int
  openRes : Option String
  readRes : Except String (List Nat)

/-- `AddAttachment` of `postmark.go`, with the file system as the oracle
`fs` and the host's extension-to-MIME table as `mimeByExt` (returning
`""` for unknown extensions, the Go contract of `mime.TypeByExtension`):
stat, enforce the `int64(10e6)` size cap before opening, open, read,
derive the MIME type with the `application/octet-stream` fallback, and
append the base64-encoded attachment record.  Returns the state of the
message after the call together with the Go `error` result. -/
def AddAttachment (mimeByExt : String → String) (p : PMMail)
    (fileName : String) (fs : FSOutcome) : PMMail × Option AttachError :=
  match fs.statRes with
  | .error e => (p, some (.statFailed e))
  | .ok size =>
    if size > 10000000 then (p, some (.sizeLimitExceeded size))
    else
      match fs.openRes with
      | some e => (p, some (.openFailed e))
      | none =>
        match fs.readRes with
        | .error e => (p, some (.readFailed e))
        | .ok content =>
          let mimeType0 := mimeByExt (pathExt fileName)
          let mimeType :=
            if mimeType0.length = 0 then "application/octet-stream" else mimeType0
          let a : attachment :=
            { Name := pathBase fileName
              Content := base64Encode content
              ContentType := mimeType }
          ({ p with attachments := p.attachments ++ [a] }, none)

-- ## Further helper lemmas on payload lookups and key sets

theorem jsonLookup_append_none (k : String) (xs ys : List (String × JValue))
    (hx : jsonLookup k xs = none) (hy : jsonLookup k ys = none) :
    jsonLookup k (xs ++ ys) = none := by
  rw [jsonLookup_append_of_none k xs ys hx]
  exact hy

theorem jsonLookup_append_of_some (k : String) (xs ys : List (String × JValue))
    (v : JValue) (h : jsonLookup k xs = some v) :
    jsonLookup k (xs ++ ys) = some v := by
  induction xs with
  | nil => simp [jsonLookup] at h
  | cons x rest ih =>
    obtain ⟨k', w⟩ := x
    by_cases hk : k = k'
    · simp only [jsonLookup, if_pos hk] at h ⊢
      simpa using h
    · simp only [jsonLookup, if_neg hk] at h ⊢
      exact ih h

/-- Key-set characterization of the built payload object: exactly the
three required keys plus each optional key when its source field is
non-empty. -/
theorem mem_payloadKeys_build (p : PMMail) (k : String) :
    k ∈ payloadKeys (buildJsonInterface p) ↔
      (k = "From" ∨ k = "To" ∨ k = "Subject"
        ∨ (k = "ReplyTo" ∧ p.ReplyTo ≠ "") ∨ (k = "Cc" ∧ p.CC ≠ "")
        ∨ (k = "Bcc" ∧ p.BCC ≠ "") ∨ (k = "Tag" ∧ p.Tag ≠ "")
        ∨ (k = "HtmlBody" ∧ p.HTMLBody ≠ "") ∨ (k = "TextBody" ∧ p.TextBody ≠ "")
        ∨ (k = "Attachments" ∧ p.attachments ≠ [])
        ∨ (k = "Headers" ∧ p.customHeaders ≠ [])) := by
  simp only [buildJsonInterface, payloadKeys_append, List.mem_append,
    mem_payloadKeys_optEntry, gt_iff_lt, List.length_pos]
  simp [payloadKeys, or_assoc]

theorem jsonLookup_build_from (p : PMMail) :
    jsonLookup "From" (buildJsonInterface p) = some (.str p.Sender) := by
  unfold buildJsonInterface
  repeat' apply jsonLookup_append_of_some
  simp [jsonLookup]

theorem jsonLookup_build_to (p : PMMail) :
    jsonLookup "To" (buildJsonInterface p) = some (.str p.To) := by
  unfold buildJsonInterface
  repeat' apply jsonLookup_append_of_some
  simp [jsonLookup]

theorem jsonLookup_build_subject (p : PMMail) :
    jsonLookup "Subject" (buildJsonInterface p) = some (.str p.Subject) := by
  unfold buildJsonInterface
  repeat' apply jsonLookup_append_of_some
  simp [jsonLookup]

/-- With at least one custom header, the payload's `Headers` value is the
serialization of the `customHeaders` list, in insertion order. -/
theorem jsonLookup_build_headers (q : PMMail) (hq : q.customHeaders ≠ []) :
    jsonLookup "Headers" (buildJsonInterface q)
      = some (.arr (q.customHeaders.map headerToJson)) := by
  have hlen : q.customHeaders.length > 0 := List.length_pos.mpr hq
  unfold buildJsonInterface
  rw [jsonLookup_append_of_none]
  · unfold optEntry
    rw [if_pos hlen]
    simp [jsonLookup]
  · repeat' first
      | apply jsonLookup_append_none
      | (apply jsonLookup_optEntry_ne _ _ _ _ (by simp))
      | simp [jsonLookup]

-- ## Concrete messages used to instantiate the theorems

/-- The example message of the spec: sender, recipient, subject and a text
body set, everything else empty. -/
def exampleMsg : PMMail :=
  { userAgent := "", apiKey := "key"
    customHeaders := [], attachments := []
    Sender := "a@x.com", ReplyTo := "", To := "b@x.com", CC := "", BCC := ""
    Subject := "Hi", Tag := "", HTMLBody := "", TextBody := "Hello" }

/-- A message whose required fields are whitespace-only strings. -/
def wsMsg : PMMail :=
  { userAgent := "", apiKey := ""
    customHeaders := [], attachments := []
    Sender := " ", ReplyTo := "", To := " ", CC := "", BCC := ""
    Subject := " ", Tag := "", HTMLBody := "", TextBody := " " }

/-- A message with a sender but no recipient. -/
def noRecipMsg : PMMail := { exampleMsg with To := "" }

-- ## Claims

/-- C1: for every message passing validation, `MessageAsJSONPacket`
produces a JSON object whose key set is exactly `{From, To, Subject}`
plus, for each optional field, its mapped key exactly when that field is
a non-empty string / non-empty list, and the required keys carry the
message fields' values verbatim. -/
theorem messageAsJSONPacket_keySet (p : PMMail) (h : checkValues p = none) :
    MessageAsJSONPacket p = .ok (buildJsonInterface p)
    ∧ jsonLookup "From" (buildJsonInterface p) = some (.str p.Sender)
    ∧ jsonLookup "To" (buildJsonInterface p) = some (.str p.To)
    ∧ jsonLookup "Subject" (buildJsonInterface p) = some (.str p.Subject)
    ∧ (∀ k : String, k ∈ payloadKeys (buildJsonInterface p) ↔
        (k = "From" ∨ k = "To" ∨ k = "Subject"
          ∨ (k = "ReplyTo" ∧ p.ReplyTo ≠ "") ∨ (k = "Cc" ∧ p.CC ≠ "")
          ∨ (k = "Bcc" ∧ p.BCC ≠ "") ∨ (k = "Tag" ∧ p.Tag ≠ "")
          ∨ (k = "HtmlBody" ∧ p.HTMLBody ≠ "")
          ∨ (k = "TextBody" ∧ p.TextBody ≠ "")
          ∨ (k = "Attachments" ∧ p.attachments ≠ [])
          ∨ (k = "Headers" ∧ p.customHeaders ≠ []))) := by
  refine ⟨?_, jsonLookup_build_from p, jsonLookup_build_to p,
    jsonLookup_build_subject p, fun k => mem_payloadKeys_build p k⟩
  unfold MessageAsJSONPacket
  rw [h]

theorem messageAsJSONPacket_keySet_witness :
    MessageAsJSONPacket exampleMsg = .ok (buildJsonInterface exampleMsg)
    ∧ jsonLookup "From" (buildJsonInterface exampleMsg) = some (.str "a@x.com")
    ∧ "TextBody" ∈ payloadKeys (buildJsonInterface exampleMsg)
    ∧ "Cc" ∉ payloadKeys (buildJsonInterface exampleMsg) := by
  obtain ⟨h1, h2, _, _, h5⟩ := messageAsJSONPacket_keySet exampleMsg (by decide)
  refine ⟨h1, h2, ?_, ?_⟩
  · exact (h5 "TextBody").mpr (by decide)
  · intro hmem
    exact absurd ((h5 "Cc").mp hmem) (by decide)

/-- C10: the required-field presence checks compare fields with the empty
string exactly, so a message whose sender, recipient, subject and text
body are all whitespace-only passes validation and builds a payload whose
required values are those whitespace strings. -/
theorem checkValues_whitespace_passes :
    checkValues wsMsg = none
    ∧ MessageAsJSONPacket wsMsg = .ok (buildJsonInterface wsMsg)
    ∧ payloadKeys (buildJsonInterface wsMsg) = ["From", "To", "Subject", "TextBody"]
    ∧ jsonLookup "From" (buildJsonInterface wsMsg) = some (.str " ") := by
  refine ⟨by decide, rfl, by decide, rfl⟩

/-- C7: `AddCustomHeader` appends with no deduplication — two additions
with the same name yield two distinct entries after the existing ones —
and the payload's `Headers` array lists every added pair in call order. -/
theorem addCustomHeader_appends (p : PMMail) (n v n2 v2 : String) :
    (AddCustomHeader p n v).customHeaders
      = p.customHeaders ++ [{ Name := n, Value := v }]
    ∧ (AddCustomHeader (AddCustomHeader p n v) n2 v2).customHeaders
      = p.customHeaders ++ [{ Name := n, Value := v }, { Name := n2, Value := v2 }]
    ∧ (∀ q : PMMail, q.customHeaders ≠ [] →
        jsonLookup "Headers" (buildJsonInterface q)
          = some (.arr (q.customHeaders.map headerToJson))) := by
  refine ⟨rfl, ?_, fun q hq => jsonLookup_build_headers q hq⟩
  simp [AddCustomHeader]

theorem addCustomHeader_appends_witness :
    (AddCustomHeader (AddCustomHeader exampleMsg "X-Dup" "one") "X-Dup" "two").customHeaders
      = [{ Name := "X-Dup", Value := "one" }, { Name := "X-Dup", Value := "two" }]
    ∧ jsonLookup "Headers"
        (buildJsonInterface (AddCustomHeader (AddCustomHeader exampleMsg "X-Dup" "one") "X-Dup" "two"))
      = some (.arr [headerToJson { Name := "X-Dup", Value := "one" },
                    headerToJson { Name := "X-Dup", Value := "two" }]) := by
  obtain ⟨_, h2, h3⟩ := addCustomHeader_appends exampleMsg "X-Dup" "one" "X-Dup" "two"
  constructor
  · rw [h2]
    decide
  · rw [h3 (AddCustomHeader (AddCustomHeader exampleMsg "X-Dup" "one") "X-Dup" "two") (by decide)]
    rw [show (AddCustomHeader (AddCustomHeader exampleMsg "X-Dup" "one") "X-Dup" "two").customHeaders
        = [{ Name := "X-Dup", Value := "one" }, { Name := "X-Dup", Value := "two" }] from by decide]
    rfl

/-- C6: the payload builder is pure and deterministic — the method leaves
the message state untouched, and any two messages agreeing on all content
fields (even differing in `apiKey`/`userAgent`) build the same payload,
so repeated calls with unchanged field state yield the same key set and
values. -/
theorem messageAsJSONPacket_deterministic (p q : PMMail)
    (hS : p.Sender = q.Sender) (hR : p.ReplyTo = q.ReplyTo)
    (hT : p.To = q.To) (hC : p.CC = q.CC) (hB : p.BCC = q.BCC)
    (hSu : p.Subject = q.Subject) (hTg : p.Tag = q.Tag)
    (hH : p.HTMLBody = q.HTMLBody) (hX : p.TextBody = q.TextBody)
    (hA : p.attachments = q.attachments)
    (hCH : p.customHeaders = q.customHeaders) :
    MessageAsJSONPacketSt p = (p, MessageAsJSONPacket p)
    ∧ MessageAsJSONPacket p = MessageAsJSONPacket q := by
  constructor
  · rfl
  · unfold MessageAsJSONPacket checkValues buildJsonInterface
    rw [hS, hR, hT, hC, hB, hSu, hTg, hH, hX, hA, hCH]

theorem messageAsJSONPacket_deterministic_witness :
    MessageAsJSONPacketSt exampleMsg = (exampleMsg, MessageAsJSONPacket exampleMsg)
    ∧ MessageAsJSONPacket exampleMsg
      = MessageAsJSONPacket { exampleMsg with apiKey := "other", userAgent := "ua" } :=
  messageAsJSONPacket_deterministic exampleMsg
    { exampleMsg with apiKey := "other", userAgent := "ua" }
    rfl rfl rfl rfl rfl rfl rfl rfl rfl rfl rfl

/-- C2: `checkValues` checks sender, recipient, subject, at-least-one-body
in that order and returns the first failing check's error;
`MessageAsJSONPacket` returns that same error without building the
object, and `Send` returns that same error unchanged with a `nil` reply,
independently of the network oracle (no network I/O). -/
theorem checkValues_firstFailing (p : PMMail) (e : ValidationError)
    (h : checkValues p = some e) :
    (e = .missingSender ↔ p.Sender = "")
    ∧ (e = .missingRecipient ↔ p.Sender ≠ "" ∧ p.To = "")
    ∧ (e = .missingSubject ↔ p.Sender ≠ "" ∧ p.To ≠ "" ∧ p.Subject = "")
    ∧ (e = .missingBody ↔ p.Sender ≠ "" ∧ p.To ≠ "" ∧ p.Subject ≠ ""
        ∧ p.HTMLBody = "" ∧ p.TextBody = "")
    ∧ MessageAsJSONPacket p = .error e
    ∧ (∀ net, Send p net = (none, some (.validation e))) := by
  have hm : MessageAsJSONPacket p = .error e := by
    unfold MessageAsJSONPacket
    rw [h]
  have hsend : ∀ net, Send p net = (none, some (.validation e)) := by
    intro net
    unfold Send
    rw [hm]
  refine ⟨?_, ?_, ?_, ?_, hm, hsend⟩ <;>
    · unfold checkValues at h
      split_ifs at h with h1 h2 h3 h4 <;>
        (try (injection h with he; subst he)) <;> simp_all

theorem checkValues_firstFailing_witness :
    MessageAsJSONPacket noRecipMsg = .error .missingRecipient
    ∧ Send noRecipMsg
        (fun _ => .ok { StatusCode := 200, readErr := none, bodyDecode := none })
      = (none, some (.validation .missingRecipient)) := by
  obtain ⟨_, _, _, _, h5, h6⟩ :=
    checkValues_firstFailing noRecipMsg .missingRecipient (by decide)
  exact ⟨h5, h6 _⟩

/-- A mock response with status 401 and a non-empty body. -/
def resp401 : HTTPResponse :=
  { StatusCode := 401
    readErr := none
    bodyDecode := some { zeroReply with Message := "ignored body" } }

/-- A mock 200 response whose body decodes to `ErrorCode = 300`. -/
def resp300 : HTTPResponse :=
  { StatusCode := 200
    readErr := none
    bodyDecode := some { zeroReply with ErrorCode := 300, Message := "Invalid email" } }

/-- A mock 200 response whose body fails to decode. -/
def respBadBody : HTTPResponse :=
  { StatusCode := 200
    readErr := none
    bodyDecode := none }

/-- C4: exactly the status codes 401, 404, 422 and 500 of an obtained
response map to the typed failures `authError`, `notFoundError`,
`malformedRequestError`, `serverError`, each carrying its status code and
a `nil` reply; any other status is not a failure at this layer and
execution falls through to body parsing. -/
theorem send_statusDispatch (p : PMMail)
    (net : List (String × JValue) → Except String HTTPResponse)
    (response : HTTPResponse)
    (hv : checkValues p = none)
    (hnet : net (buildJsonInterface p) = .ok response) :
    (response.StatusCode = 401 → Send p net = (none, some (.authError 401)))
    ∧ (response.StatusCode = 404 → Send p net = (none, some (.notFoundError 404)))
    ∧ (response.StatusCode = 422 → Send p net = (none, some (.malformedRequestError 422)))
    ∧ (response.StatusCode = 500 → Send p net = (none, some (.serverError 500)))
    ∧ (response.StatusCode ≠ 401 → response.StatusCode ≠ 404 →
        response.StatusCode ≠ 422 → response.StatusCode ≠ 500 →
        Send p net = parseBody response) := by
  have hm : MessageAsJSONPacket p = .ok (buildJsonInterface p) := by
    unfold MessageAsJSONPacket
    rw [hv]
  refine ⟨?_, ?_, ?_, ?_, ?_⟩
  · intro h
    unfold Send
    rw [hm]
    simp [hnet, h]
  · intro h
    unfold Send
    rw [hm]
    simp [hnet, h]
  · intro h
    unfold Send
    rw [hm]
    simp [hnet, h]
  · intro h
    unfold Send
    rw [hm]
    simp [hnet, h]
  · intro h1 h2 h3 h4
    unfold Send
    rw [hm]
    simp [hnet, h1, h2, h3, h4]

theorem send_statusDispatch_witness :
    Send exampleMsg (fun _ => .ok resp401) = (none, some (.authError 401)) := by
  have h := send_statusDispatch exampleMsg (fun _ => .ok resp401) resp401
    (by decide) rfl
  exact h.1 rfl

/-- C3: once a response with an unmapped status is obtained and its body
read, the body is decoded permissively — a decode failure leaves the
reply at its zero value instead of failing the call; a non-zero
`ErrorCode` makes `Send` return the (non-`nil`) reply together with a
`remoteError` carrying the code, and a zero `ErrorCode` returns the reply
with no error. -/
theorem send_parsesBody (p : PMMail)
    (net : List (String × JValue) → Except String HTTPResponse)
    (response : HTTPResponse)
    (hv : checkValues p = none)
    (hnet : net (buildJsonInterface p) = .ok response)
    (h401 : response.StatusCode ≠ 401) (h404 : response.StatusCode ≠ 404)
    (h422 : response.StatusCode ≠ 422) (h500 : response.StatusCode ≠ 500)
    (hread : response.readErr = none) :
    (response.bodyDecode = none → Send p net = (some zeroReply, none))
    ∧ (∀ r : Reply, response.bodyDecode = some r →
        (r.ErrorCode ≠ 0 → Send p net = (some r, some (.remoteError r.ErrorCode)))
        ∧ (r.ErrorCode = 0 → Send p net = (some r, none))) := by
  have hm : MessageAsJSONPacket p = .ok (buildJsonInterface p) := by
    unfold MessageAsJSONPacket
    rw [hv]
  have hbody : Send p net = parseBody response := by
    unfold Send
    rw [hm]
    simp [hnet, h401, h404, h422, h500]
  constructor
  · intro hd
    rw [hbody]
    unfold parseBody
    rw [hread, hd]
    simp [zeroReply]
  · intro r hd
    constructor
    · intro hec
      rw [hbody]
      unfold parseBody
      rw [hread, hd]
      simp [hec]
    · intro hec
      rw [hbody]
      unfold parseBody
      rw [hread, hd]
      simp [hec]

theorem send_parsesBody_witness :
    Send exampleMsg (fun _ => .ok resp300)
      = (some { zeroReply with ErrorCode := 300, Message := "Invalid email" },
         some (.remoteError 300))
    ∧ Send exampleMsg (fun _ => .ok respBadBody) = (some zeroReply, none) := by
  constructor
  · have h := send_parsesBody exampleMsg (fun _ => .ok resp300) resp300
      (by decide) rfl (by decide) (by decide) (by decide) (by decide) rfl
    exact (h.2 _ rfl).1 (by decide)
  · have h := send_parsesBody exampleMsg (fun _ => .ok respBadBody) respBadBody
      (by decide) rfl (by decide) (by decide) (by decide) (by decide) rfl
    exact h.1 rfl

/-- C5: for every file whose stat'd size exceeds 10,000,000 bytes,
`AddAttachment` fails with the size-limit error leaving the message
unchanged, independently of the open/read oracle (the content is never
read); with no attachments the built payload has no `Attachments` key. -/
theorem addAttachment_sizeLimit (mimeByExt : String → String) (p : PMMail)
    (fileName : String) (sz : Int) (hsz : sz > 10000000) :
    (∀ fs : FSOutcome, fs.statRes = .ok sz →
      AddAttachment mimeByExt p fileName fs = (p, some (.sizeLimitExceeded sz)))
    ∧ (p.attachments = [] → ∀ obj, MessageAsJSONPacket p = .ok obj →
        "Attachments" ∉ payloadKeys obj) := by
  constructor
  · intro fs h
    unfold AddAttachment
    rw [h]
    simp [hsz]
  · intro hA obj hobj
    unfold MessageAsJSONPacket at hobj
    split at hobj
    · exact absurd hobj (by simp)
    · injection hobj with he
      subst he
      simp [mem_payloadKeys_build, hA]

/-- The file-system oracle of a 10,000,001-byte file. -/
def bigFileFS : FSOutcome :=
  { statRes := .ok 10000001, openRes := none, readRes := .ok [7] }

theorem addAttachment_sizeLimit_witness :
    AddAttachment (fun _ => "") exampleMsg "big.bin" bigFileFS
      = (exampleMsg, some (.sizeLimitExceeded 10000001))
    ∧ "Attachments" ∉ payloadKeys (buildJsonInterface exampleMsg) := by
  obtain ⟨h1, h2⟩ :=
    addAttachment_sizeLimit (fun _ => "") exampleMsg "big.bin" 10000001 (by decide)
  exact ⟨h1 bigFileFS rfl, h2 rfl (buildJsonInterface exampleMsg) rfl⟩

/-- C9: `AddAttachment` is atomic on every error path — a failed stat,
the size cap, a failed open and a failed read each return the error with
the whole message unchanged — and on success appends exactly one record
at the end, named by the base file name of the path and carrying the
standard base64 encoding of the file's bytes. -/
theorem addAttachment_atomic (mimeByExt : String → String) (p : PMMail)
    (fileName : String) (fs : FSOutcome) :
    (∀ e, fs.statRes = .error e →
      AddAttachment mimeByExt p fileName fs = (p, some (.statFailed e)))
    ∧ (∀ sz, fs.statRes = .ok sz → sz > 10000000 →
      AddAttachment mimeByExt p fileName fs = (p, some (.sizeLimitExceeded sz)))
    ∧ (∀ sz e, fs.statRes = .ok sz → sz ≤ 10000000 → fs.openRes = some e →
      AddAttachment mimeByExt p fileName fs = (p, some (.openFailed e)))
    ∧ (∀ sz e, fs.statRes = .ok sz → sz ≤ 10000000 → fs.openRes = none →
        fs.readRes = .error e →
      AddAttachment mimeByExt p fileName fs = (p, some (.readFailed e)))
    ∧ (∀ sz content, fs.statRes = .ok sz → sz ≤ 10000000 → fs.openRes = none →
        fs.readRes = .ok content →
      AddAttachment mimeByExt p fileName fs =
        ({ p with attachments := p.attachments ++
            [{ Name := pathBase fileName
               Content := base64Encode content
               ContentType := if (mimeByExt (pathExt fileName)).length = 0
                 then "application/octet-stream"
                 else mimeByExt (pathExt fileName) }] },
         none)) := by
  refine ⟨?_, ?_, ?_, ?_, ?_⟩
  · intro e h
    unfold AddAttachment
    rw [h]
  · intro sz h hgt
    unfold AddAttachment
    rw [h]
    simp [hgt]
  · intro sz e h hle hopen
    unfold AddAttachment
    rw [h]
    simp [not_lt.mpr hle, hopen]
  · intro sz e h hle hopen hread
    unfold AddAttachment
    rw [h]
    simp [not_lt.mpr hle, hopen, hread]
  · intro sz content h hle hopen hread
    unfold AddAttachment
    rw [h]
    simp [not_lt.mpr hle, hopen, hread]

/-- The file-system oracle of a missing file. -/
def missingFileFS : FSOutcome :=
  { statRes := .error "no such file", openRes := none, readRes := .ok [] }

/-- The file-system oracle of a 2-byte file with content "Hi". -/
def smallFileFS : FSOutcome :=
  { statRes := .ok 2, openRes := none, readRes := .ok [72, 105] }

theorem addAttachment_atomic_witness :
    AddAttachment (fun _ => "") exampleMsg "a.bin" missingFileFS
      = (exampleMsg, some (.statFailed "no such file"))
    ∧ AddAttachment (fun _ => "") exampleMsg "dir/doc.xyz" smallFileFS
      = ({ exampleMsg with attachments :=
            [{ Name := "doc.xyz"
               Content := "SGk="
               ContentType := "application/octet-stream" }] },
         none) := by
  obtain ⟨h1, _, _, _, _⟩ :=
    addAttachment_atomic (fun _ => "") exampleMsg "a.bin" missingFileFS
  obtain ⟨_, _, _, _, g5⟩ :=
    addAttachment_atomic (fun _ => "") exampleMsg "dir/doc.xyz" smallFileFS
  constructor
  · exact h1 "no such file" rfl
  · have hg := g5 2 [72, 105] rfl (by decide) rfl rfl
    rw [hg]
    decide

/-- C8: on a successful attach, the MIME content type is derived from the
file-name extension through the host mapping, `application/octet-stream`
is recorded whenever the mapping does not recognize the extension or the
name has no extension, and the recorded `ContentType` is never empty. -/
theorem addAttachment_contentType (mimeByExt : String → String) (p : PMMail)
    (fileName : String) (fs : FSOutcome) (sz : Int) (content : List Nat)
    (hstat : fs.statRes = .ok sz) (hle : sz ≤ 10000000)
    (hopen : fs.openRes = none) (hread : fs.readRes = .ok content)
    (hm0 : mimeByExt "" = "") :
    ∃ a : attachment,
      (AddAttachment mimeByExt p fileName fs).1.attachments = p.attachments ++ [a]
      ∧ (AddAttachment mimeByExt p fileName fs).2 = none
      ∧ a.ContentType = (if (mimeByExt (pathExt fileName)).length = 0
          then "application/octet-stream" else mimeByExt (pathExt fileName))
      ∧ a.ContentType ≠ ""
      ∧ (pathExt fileName = "" → a.ContentType = "application/octet-stream")
      ∧ (mimeByExt (pathExt fileName) = "" →
          a.ContentType = "application/octet-stream") := by
  have hrun : AddAttachment mimeByExt p fileName fs =
      ({ p with attachments := p.attachments ++
          [{ Name := pathBase fileName
             Content := base64Encode content
             ContentType := if (mimeByExt (pathExt fileName)).length = 0
               then "application/octet-stream"
               else mimeByExt (pathExt fileName) }] },
       none) := by
    unfold AddAttachment
    rw [hstat]
    simp [not_lt.mpr hle, hopen, hread]
  refine ⟨_, by rw [hrun], by rw [hrun], rfl, ?_, ?_, ?_⟩
  · by_cases hz : (mimeByExt (pathExt fileName)).length = 0
    · simp [hz]
    · simp only [if_neg hz]
      intro hcontra
      rw [hcontra] at hz
      exact hz rfl
  · intro hx
    rw [hx, hm0]
    simp
  · intro hx
    rw [hx]
    simp

/-- A host MIME table recognizing only the `.txt` extension. -/
def txtMime : String → String :=
  fun e => if e = ".txt" then "text/plain; charset=utf-8" else ""

theorem addAttachment_contentType_witness :
    ∃ a : attachment,
      (AddAttachment txtMime exampleMsg "notes.txt" smallFileFS).1.attachments
        = exampleMsg.attachments ++ [a]
      ∧ a.ContentType = (if (txtMime (pathExt "notes.txt")).length = 0
          then "application/octet-stream" else txtMime (pathExt "notes.txt"))
      ∧ a.ContentType ≠ "" := by
  obtain ⟨a, h1, _, h3, h4, _, _⟩ :=
    addAttachment_contentType txtMime exampleMsg "notes.txt" smallFileFS 2
      [72, 105] rfl (by decide) rfl rfl (by decide)
  exact ⟨a, h1, h3, h4⟩
